import Mathlib

/-!
Shallow embedding of the matcher-rs limit-order matching engine.

The embedding follows src/src/order_book.rs (OrderBook and its operations),
src/src/level.rs together with src/src/limit.rs (the Level/Limit price-level
structure and its id-based lookup/removal), and src/src/main.rs (the Order
struct with its fill operation, and the Side/OrderType enums).

Rust mutable state is passed explicitly: every method taking &mut self is a
function OrderBook → ... → OrderBook (or returns a pair when the Rust method
also returns a value).  Vec/VecDeque become List (front = head, push/push_back
append at the tail).  u32/usize become Nat, i32 prices become Int.  The two
external collaborators that the source consumes but does not define — the
unique-id supplier and the monotonic clock — are modelled as counters carried
by the book state (see fresh_id and now below).
-/

/-- Side of an order, from src/src/main.rs (`enum Side { Buy, Sell }`). -/
inductive Side where
  | Buy
  | Sell
deriving DecidableEq, Repr

/-- Order type, from src/src/main.rs
(`enum OrderType { FillAndKill, GoodTilCancel }`). -/
inductive OrderType where
  | FillAndKill
  | GoodTilCancel
deriving DecidableEq, Repr

/-- Modelled from the spec: the crate-root `Order` struct consumed by
src/src/order_book.rs (its definition is missing from src/; order_book.rs
reads exactly the fields `id`, `side`, `order_type`, `price`, `initial_qty`,
`remaining_qty`, `created_at`, `updated_at`, which the spec's data model
lists, and src/src/main.rs holds the analogous struct with Instant/SystemTime
timestamps).  The opaque id is a Nat, timestamps are Nat clock readings. -/
structure Order where
  id : Nat
  side : Side
  order_type : OrderType
  price : Int
  initial_qty : Nat
  remaining_qty : Nat
  created_at : Nat
  updated_at : Nat
deriving DecidableEq, Repr

/-- Modelled from the spec: `Order::new(order_type, side, price, qty)` used by
order_book.rs, mirroring the analogous constructor in src/src/main.rs —
`initial_qty = remaining_qty = qty`, both timestamps set to one clock reading,
the id drawn from the external unique-id supplier. -/
def Order.new (order_type : OrderType) (side : Side) (price : Int) (qty : Nat)
    (id : Nat) (now : Nat) : Order :=
  { id := id
    side := side
    order_type := order_type
    price := price
    initial_qty := qty
    remaining_qty := qty
    created_at := now
    updated_at := now }

/-- Order commands, from the spec's §4.3 vocabulary; the variants and their
payloads are exactly those destructured by `OrderBook::process_command` in
src/src/order_book.rs. -/
inductive OrderCommand where
  | New (order_type : OrderType) (side : Side) (price : Int) (qty : Nat)
  | Cancel (id : Nat) (side : Side) (price : Int)
  | Modify (id : Nat) (side : Side) (price : Int) (qty : Nat) (order_type : OrderType)
deriving DecidableEq, Repr

/-- Order events, from the spec's §4.3 vocabulary; the variants and their
payloads are exactly those constructed in src/src/order_book.rs. -/
inductive OrderEvent where
  | Placed (id : Nat) (side : Side) (order_type : OrderType) (price : Int) (timestamp : Nat)
  | Canceled (id : Nat)
  | PartiallyFilled (id : Nat) (price : Int) (qty : Nat) (timestamp : Nat)
  | Filled (id : Nat) (price : Int) (timestamp : Nat)
deriving DecidableEq, Repr

/-- A price level, from src/src/level.rs (`struct Level`): one price and the
FIFO queue of resting orders at that price (VecDeque front = list head). -/
structure Level where
  price : Int
  orders : List Order
deriving DecidableEq, Repr

/-- `Level::new(price)` from src/src/level.rs. -/
def Level.new (price : Int) : Level :=
  { price := price, orders := [] }

/-- `find_by_id` as implemented on the identical Limit struct in
src/src/limit.rs (order_book.rs calls it on Level):
`self.orders.iter().position(|x| x.id == id)`. -/
def Level.find_by_id (lev : Level) (id : Nat) : Option Nat :=
  listPosition (fun x => x.id == id) lev.orders
where
  /-- `Iterator::position`: index of the first element satisfying the
  predicate. -/
  listPosition (p : Order → Bool) : List Order → Option Nat
    | [] => none
    | x :: xs => if p x then some 0 else (listPosition p xs).map (· + 1)

/-- `remove_order_by_id` as implemented on the identical Limit struct in
src/src/limit.rs: remove the order at the found position and report whether
one was removed.  The Rust method mutates the level; here it returns the
flag together with the updated level. -/
def Level.remove_order_by_id (lev : Level) (id : Nat) : Bool × Level :=
  match lev.find_by_id id with
  | some order_pos => (true, { lev with orders := lev.orders.eraseIdx order_pos })
  | none => (false, lev)

/-- `Iterator::position` over a list of levels, as used throughout
src/src/order_book.rs (`queue.iter().position(|lev| ...)`). -/
def levelPosition (p : Level → Bool) : List Level → Option Nat
  | [] => none
  | x :: xs => if p x then some 0 else (levelPosition p xs).map (· + 1)

/-- Stable insertion used to embed Rust's stable `slice::sort` /
`slice::sort_by`: `lt y x` means y sorts strictly before x, so an element
being inserted is placed before every element it does not sort strictly
after, keeping the original relative order of elements that compare equal. -/
def insertSorted (lt : Level → Level → Bool) (x : Level) : List Level → List Level
  | [] => [x]
  | y :: ys => if lt y x then y :: insertSorted lt x ys else x :: y :: ys

/-- Stable sort embedding Rust's `sort`/`sort_by` on `Vec<Level>`. -/
def stableSort (lt : Level → Level → Bool) (xs : List Level) : List Level :=
  xs.foldr (insertSorted lt) []

/-- Ascending comparison for `self.asks.sort()` in order_book.rs.  The derived
Ord on Level compares `price` first and tie-breaks on the order queues; a book
side never holds two levels with the same price, so the tie-break is modelled
as the price comparison alone. -/
def Level.ltAsc (a b : Level) : Bool :=
  decide (a.price < b.price)

/-- Descending-by-price comparison for
`self.bids.sort_by(|a, b| b.price.partial_cmp(&a.price).unwrap())`
in order_book.rs. -/
def Level.ltDescByPrice (a b : Level) : Bool :=
  decide (b.price < a.price)

/-- `MatchStatus` from src/src/order_book.rs. -/
inductive MatchStatus where
  | Pending
  | Done
deriving DecidableEq, Repr

/-- The order book, from src/src/order_book.rs (`struct OrderBook`), extended
with the two external collaborators the source consumes but does not define:
`next_id` models the opaque unique-id supplier and `clock` the opaque
monotonic clock (spec §6), both as counters. -/
structure OrderBook where
  bids : List Level
  asks : List Level
  commands : List OrderCommand
  events : List OrderEvent
  next_id : Nat
  clock : Nat
deriving DecidableEq, Repr

namespace OrderBook

/-- `OrderBook::new()`. -/
def new : OrderBook :=
  { bids := [], asks := [], commands := [], events := [], next_id := 0, clock := 0 }

/-- Modelled from the spec: the opaque unique-id supplier
(`next_id() -> Id`, unique across the engine's lifetime, §6). -/
def fresh_id (b : OrderBook) : Nat × OrderBook :=
  (b.next_id, { b with next_id := b.next_id + 1 })

/-- Modelled from the spec: the opaque monotonic clock
(`now() -> Timestamp`, §6), embedding `Instant::now()` call sites. -/
def now (b : OrderBook) : Nat × OrderBook :=
  (b.clock, { b with clock := b.clock + 1 })

/-- The opposing side's level vector, as selected by
`match order.side { Buy => &mut self.asks, Sell => &mut self.bids }`. -/
def oppLevels (b : OrderBook) (s : Side) : List Level :=
  match s with
  | .Buy => b.asks
  | .Sell => b.bids

/-- Write back the opposing side's level vector. -/
def setOppLevels (b : OrderBook) (s : Side) (q : List Level) : OrderBook :=
  match s with
  | .Buy => { b with asks := q }
  | .Sell => { b with bids := q }

/-- The order's own side's level vector, as selected by
`match order.side { Buy => &mut self.bids, Sell => &mut self.asks }`. -/
def ownLevels (b : OrderBook) (s : Side) : List Level :=
  match s with
  | .Buy => b.bids
  | .Sell => b.asks

/-- Write back the own side's level vector. -/
def setOwnLevels (b : OrderBook) (s : Side) (q : List Level) : OrderBook :=
  match s with
  | .Buy => { b with bids := q }
  | .Sell => { b with asks := q }

/-- `OrderBook::find_order_to_match` (order_book.rs lines 127-147): sort the
opposing side in place (asks ascending by the derived Ord, bids descending by
price), then return a clone of the front order of the first level, or None
when the side is empty. -/
def find_order_to_match (b : OrderBook) (order : Order) : Option Order × OrderBook :=
  match order.side with
  | .Buy =>
    let asks := stableSort Level.ltAsc b.asks
    let b := { b with asks := asks }
    ((asks.head?).bind (fun lev => lev.orders.head?), b)
  | .Sell =>
    let bids := stableSort Level.ltDescByPrice b.bids
    let b := { b with bids := bids }
    ((bids.head?).bind (fun lev => lev.orders.head?), b)

/-- `OrderBook::try_match_order` (order_book.rs lines 149-237).  The three-way
`order.remaining_qty.cmp(&match_order.remaining_qty)` is embedded as nested
comparisons (Greater / Less / Equal).  `pop_front().unwrap()` and
`front().unwrap()` panic in Rust on an empty queue; those branches (and a
failed index lookup after a successful position search) are modelled as
leaving the book unchanged — they are unreachable for books whose levels are
non-empty. -/
def try_match_order (b : OrderBook) (order : Order) (match_order : Order) :
    MatchStatus × OrderBook :=
  let (timestamp, b) := b.now
  if match_order.remaining_qty < order.remaining_qty then
    -- Ordering::Greater
    let lev_vec := b.oppLevels order.side
    match levelPosition (fun lev => lev.price == match_order.price) lev_vec with
    | some lev_pos =>
      match lev_vec.get? lev_pos with
      | some lev =>
        match lev.orders with
        | opp_ord :: rest =>
          let lev_vec :=
            if rest.isEmpty then lev_vec.eraseIdx lev_pos
            else lev_vec.set lev_pos { lev with orders := rest }
          let b := b.setOppLevels order.side lev_vec
          let b := { b with events := b.events ++
            [.PartiallyFilled order.id order.price opp_ord.remaining_qty timestamp,
             .Filled opp_ord.id order.price timestamp] }
          (.Pending, b)
        | [] => (.Pending, b)
      | none => (.Pending, b)
    | none => (.Pending, b)
  else if order.remaining_qty < match_order.remaining_qty then
    -- Ordering::Less: the front order is cloned, `fill` is applied to the
    -- clone and its result discarded (`let _ = opp_ord.fill(...)`), so the
    -- book itself is not modified; only the two events are pushed.
    let lev_vec := b.oppLevels order.side
    match levelPosition (fun lev => lev.price == match_order.price) lev_vec with
    | some lev_pos =>
      match lev_vec.get? lev_pos with
      | some lev =>
        match lev.orders with
        | opp_ord :: _ =>
          let b := { b with events := b.events ++
            [.PartiallyFilled opp_ord.id order.price order.remaining_qty timestamp,
             .Filled order.id order.price timestamp] }
          (.Done, b)
        | [] => (.Done, b)
      | none => (.Done, b)
    | none => (.Done, b)
  else
    -- Ordering::Equal
    let lev_vec := b.oppLevels order.side
    match levelPosition (fun lev => lev.price == match_order.price) lev_vec with
    | some lev_pos =>
      match lev_vec.get? lev_pos with
      | some lev =>
        match lev.orders with
        | opp_ord :: rest =>
          let lev_vec :=
            if rest.isEmpty then lev_vec.eraseIdx lev_pos
            else lev_vec.set lev_pos { lev with orders := rest }
          let b := b.setOppLevels order.side lev_vec
          let b := { b with events := b.events ++
            [.Filled opp_ord.id order.price timestamp,
             .Filled order.id order.price timestamp] }
          (.Done, b)
        | [] => (.Done, b)
      | none => (.Done, b)
    | none => (.Done, b)

/-- `OrderBook::place_order` (order_book.rs lines 87-125) with explicit fuel
for the `MatchStatus::Pending` recursion.  Each recursive call either removes
one resting order from the opposing side or reduces the incoming remaining
quantity, so the fuel chosen by `place_order` below dominates the recursion
depth of every execution the Rust recursion completes. -/
def placeOrderFuel : Nat → OrderBook → Order → OrderBook
  | 0, b, _ => b
  | fuel + 1, b, order =>
    if order.initial_qty = 0 then b
    else
      match b.find_order_to_match order with
      | (some order_try_match, b) =>
        let can_match : Bool :=
          match order.side with
          | .Buy => decide (order_try_match.price ≤ order.price)
          | .Sell => decide (order.price ≤ order_try_match.price)
        if can_match then
          match b.try_match_order order order_try_match with
          | (.Done, b) => b
          | (.Pending, b) =>
            let (t, b) := b.now
            let ord := { order with
              remaining_qty := order.remaining_qty - order_try_match.remaining_qty
              updated_at := t }
            placeOrderFuel fuel b ord
        else
          b
      | (none, b) =>
        let queue := b.ownLevels order.side
        match levelPosition (fun lev => lev.price == order.price) queue with
        | some lev_pos =>
          match queue.get? lev_pos with
          | some lev =>
            b.setOwnLevels order.side
              (queue.set lev_pos { lev with orders := lev.orders ++ [order] })
          | none => b
        | none =>
          let new_lev := { Level.new order.price with orders := [order] }
          b.setOwnLevels order.side (queue ++ [new_lev])

/-- Total number of resting orders, used to bound the matching recursion. -/
def totalOrders (b : OrderBook) : Nat :=
  (b.bids.map (fun lev => lev.orders.length)).sum
    + (b.asks.map (fun lev => lev.orders.length)).sum

/-- `OrderBook::place_order`: the fuel bounds the recursion depth (see
placeOrderFuel). -/
def place_order (b : OrderBook) (order : Order) : OrderBook :=
  placeOrderFuel (order.remaining_qty + b.totalOrders + 1) b order

/-- `OrderBook::remove_order` (order_book.rs lines 74-85): locate the level at
the price on the side, remove the order by id if present, and emit Canceled
iff removal succeeded.  An emptied level is NOT removed from its side. -/
def remove_order (b : OrderBook) (id : Nat) (price : Int) (side : Side) : OrderBook :=
  let queue :=
    match side with
    | .Buy => b.bids
    | .Sell => b.asks
  match levelPosition (fun lev => lev.price == price) queue with
  | some lev_pos =>
    match queue.get? lev_pos with
    | some lev =>
      let (removed, lev) := lev.remove_order_by_id id
      let b :=
        match side with
        | .Buy => { b with bids := queue.set lev_pos lev }
        | .Sell => { b with asks := queue.set lev_pos lev }
      if removed then { b with events := b.events ++ [.Canceled id] } else b
    | none => b
  | none => b

/-- Body of the `OrderCommand::New` arm of `process_command`: construct the
Order (drawing from the id supplier and the clock), push Placed, then call
place_order. -/
def runNew (b : OrderBook) (order_type : OrderType) (side : Side)
    (price : Int) (qty : Nat) : OrderBook :=
  let (id, b) := b.fresh_id
  let (t, b) := b.now
  let order := Order.new order_type side price qty id t
  let b := { b with events := b.events ++
    [OrderEvent.Placed order.id order.side order.order_type price order.created_at] }
  b.place_order order

/-- Push a command onto the command log (`self.commands.push(command.clone())`
at the top of `process_command`). -/
def pushCmd (b : OrderBook) (command : OrderCommand) : OrderBook :=
  { b with commands := b.commands ++ [command] }

/-- `OrderBook::process_command` (order_book.rs lines 26-72).  The Modify arm
re-enters process_command with a Cancel and then a New command; since those
two commands are not Modify, the recursion has depth one and is inlined here
through pushCmd / remove_order / runNew — exactly the path the nested
process_command calls take. -/
def process_command (b : OrderBook) (command : OrderCommand) : OrderBook :=
  let b := b.pushCmd command
  match command with
  | .New order_type side price qty => b.runNew order_type side price qty
  | .Cancel id side price => b.remove_order id price side
  | .Modify id side price qty order_type =>
    let queue :=
      match side with
      | .Buy => b.bids
      | .Sell => b.asks
    match levelPosition (fun lev => lev.price == price) queue with
    | some lev_pos =>
      match (queue.get? lev_pos).bind (fun level =>
          (level.find_by_id id).bind (fun order_pos => level.orders.get? order_pos)) with
      | some order =>
        (((b.pushCmd (OrderCommand.Cancel id side price)).remove_order id price side).pushCmd
            (OrderCommand.New order_type order.side price qty)).runNew
          order_type order.side price qty
      | none => b
    | none => b

/-- Process a list of commands in sequence. -/
def processList (b : OrderBook) (cmds : List OrderCommand) : OrderBook :=
  cmds.foldl process_command b

end OrderBook

/-- Prices of the levels on a side that hold at least one resting order. -/
def restingPrices (levels : List Level) : List Int :=
  (levels.filter (fun lev => !lev.orders.isEmpty)).map (fun lev => lev.price)

namespace MainRs

/-- The `Order` struct of src/src/main.rs (lines 123-133): string id, enums,
i32 price, u32 quantities, SystemTime timestamps (modelled as Nat clock
readings). -/
structure Order where
  order_id : String
  order_type : OrderType
  order_side : Side
  order_price : Int
  order_init_qty : Nat
  order_rem_qty : Nat
  created_at : Nat
  updated_at : Nat
deriving DecidableEq, Repr

/-- `Order::fill` from src/src/main.rs (lines 150-165): fail when
`qty > self.order_rem_qty`, otherwise return a new Order with the remaining
quantity decremented and `updated_at` set to `SystemTime::now()` (passed here
as the explicit `now` argument). -/
def Order.fill (self : Order) (qty : Nat) (now : Nat) : Except Unit Order :=
  if self.order_rem_qty < qty then
    Except.error ()
  else
    Except.ok
      { order_id := self.order_id
        order_type := self.order_type
        order_side := self.order_side
        order_price := self.order_price
        order_init_qty := self.order_init_qty
        order_rem_qty := self.order_rem_qty - qty
        created_at := self.created_at
        updated_at := now }

/-- State-passing embedding of the `&mut self` method call
`Order::fill(&mut self, qty)`: the pair is (receiver state after the call,
returned Result).  The method body constructs and returns a fresh Order and
performs no assignment through `&mut self`, so the receiver component is the
receiver unchanged. -/
def Order.fillMut (self : Order) (qty : Nat) (now : Nat) : Order × Except Unit Order :=
  (self, self.fill qty now)

end MainRs

/-- Extract the price field of an event, when it carries one. -/
def OrderEvent.price? : OrderEvent → Option Int
  | .Placed _ _ _ p _ => some p
  | .Canceled _ => none
  | .PartiallyFilled _ p _ _ => some p
  | .Filled _ p _ => some p

/-- The prices carried by the Filled events of a log, in order. -/
def filledPrices (events : List OrderEvent) : List Int :=
  events.filterMap (fun e =>
    match e with
    | .Filled _ p _ => some p
    | _ => none)

/-- C1: the claim states that an incoming order that does not cross a
non-empty opposing side is rested at its own price.  The code instead drops
it: after resting Sell 1@125, an incoming Buy 1@122 (no cross: 122 < 125)
leaves the bid side empty — the buy order is neither matched nor rested. -/
theorem c1_noncrossing_order_dropped :
    (OrderBook.processList OrderBook.new
        [.New .GoodTilCancel .Sell 125 1, .New .GoodTilCancel .Buy 122 1]).bids = []
      ∧
    (OrderBook.processList OrderBook.new
        [.New .GoodTilCancel .Sell 125 1, .New .GoodTilCancel .Buy 122 1]).asks =
      [{ price := 125,
         orders := [{ id := 0, side := .Sell, order_type := .GoodTilCancel, price := 125,
                      initial_qty := 1, remaining_qty := 1, created_at := 0, updated_at := 0 }] }] := by
  decide

/-- C2: the claim states that a smaller incoming order decrements the resting
front order's remaining_qty stored in the book.  The code applies fill to a
discarded clone: after resting Sell 5@122, an incoming Buy 2@122 emits the
PartiallyFilled/Filled pair but the stored resting order still has
remaining_qty = 5 (and an unchanged timestamp). -/
theorem c2_resting_qty_not_decremented :
    (OrderBook.processList OrderBook.new
        [.New .GoodTilCancel .Sell 122 5, .New .GoodTilCancel .Buy 122 2]).asks =
      [{ price := 122,
         orders := [{ id := 0, side := .Sell, order_type := .GoodTilCancel, price := 122,
                      initial_qty := 5, remaining_qty := 5, created_at := 0, updated_at := 0 }] }]
      ∧
    (OrderBook.processList OrderBook.new
        [.New .GoodTilCancel .Sell 122 5, .New .GoodTilCancel .Buy 122 2]).events =
      [.Placed 0 .Sell .GoodTilCancel 122 0, .Placed 1 .Buy .GoodTilCancel 122 1,
       .PartiallyFilled 0 122 2 2, .Filled 1 122 2] := by
  decide

/-- C3: the claim states that a FillAndKill order never rests.  The code never
consults order_type: a FillAndKill Buy 1@122 arriving at an empty book (so
nothing crosses) is appended to the bid side instead of being discarded. -/
theorem c3_fill_and_kill_rests :
    (OrderBook.processList OrderBook.new [.New .FillAndKill .Buy 122 1]).bids =
      [{ price := 122,
         orders := [{ id := 0, side := .Buy, order_type := .FillAndKill, price := 122,
                      initial_qty := 1, remaining_qty := 1, created_at := 0, updated_at := 0 }] }] := by
  decide

/-- C4 counterexample: the claim states that fill events carry the resting
order's price.  After resting Sell 1@100, an incoming Buy 1@105 matches it,
and both Filled events carry 105 — the incoming order's price — not the
resting price 100. -/
theorem c4_counterexample_trade_price_incoming :
    filledPrices (OrderBook.processList OrderBook.new
        [.New .GoodTilCancel .Sell 100 1, .New .GoodTilCancel .Buy 105 1]).events = [105, 105]
      ∧
    ¬ filledPrices (OrderBook.processList OrderBook.new
        [.New .GoodTilCancel .Sell 100 1, .New .GoodTilCancel .Buy 105 1]).events = [100, 100] := by
  decide

/-- C4 amended: every event appended by try_match_order (Filled and
PartiallyFilled alike) carries the incoming order's price, not the resting
order's price. -/
theorem c4_amended_events_carry_incoming_price (b : OrderBook) (order match_order : Order) :
    ∃ tail, ((b.try_match_order order match_order).2).events = b.events ++ tail ∧
      ∀ e ∈ tail, e.price? = some order.price := by
  unfold OrderBook.try_match_order OrderBook.setOppLevels OrderBook.now
  dsimp only
  repeat' split
  all_goals
    try exact ⟨[], (List.append_nil _).symm, by simp⟩
  all_goals
    refine ⟨_, rfl, ?_⟩
    intro e he
    simp only [List.mem_cons, List.not_mem_nil, or_false] at he
    rcases he with rfl | rfl <;> rfl

/-- C5 counterexample: the claim states that a New command with qty == 0
appends no event at all.  Processing New{GoodTilCancel, Buy, 122, qty 0} on a
fresh book appends exactly one Placed event. -/
theorem c5_counterexample_placed_emitted_for_zero_qty :
    (OrderBook.new.process_command (.New .GoodTilCancel .Buy 122 0)).events =
      [.Placed 0 .Buy .GoodTilCancel 122 0] := by
  decide

/-- C5 amended: a New command with qty == 0 leaves both book sides unchanged
(the order is neither matched nor rested, since place_order returns before
touching the book), but a Placed event is appended to the event log before
the zero-quantity check. -/
theorem c5_amended_zero_qty_placed_not_rested (b : OrderBook) (order_type : OrderType)
    (side : Side) (price : Int) :
    (b.process_command (.New order_type side price 0)).bids = b.bids ∧
    (b.process_command (.New order_type side price 0)).asks = b.asks ∧
    (b.process_command (.New order_type side price 0)).events =
      b.events ++ [.Placed b.next_id side order_type price b.clock] := by
  simp [OrderBook.process_command, OrderBook.pushCmd, OrderBook.runNew,
    OrderBook.fresh_id, OrderBook.now, Order.new, OrderBook.place_order,
    OrderBook.placeOrderFuel]

/-- C6: the claim states that no side ever contains an empty PriceLevel, in
particular after a Cancel removing the last order at a price.  After
Sell 1@122 (id 0) and Cancel{0, Sell, 122}, the ask side still holds the
level at 122 with an empty order queue — remove_order never deletes an
emptied level. -/
theorem c6_cancel_leaves_empty_level :
    (OrderBook.processList OrderBook.new
        [.New .GoodTilCancel .Sell 122 1, .Cancel 0 .Sell 122]).asks =
      [{ price := 122, orders := [] }]
      ∧
    ∃ lev ∈ (OrderBook.processList OrderBook.new
        [.New .GoodTilCancel .Sell 122 1, .Cancel 0 .Sell 122]).asks,
      lev.orders = [] := by
  decide

/-- C7: the claim states the book is never crossed at rest.  After
Sell 1@122 (id 0), Sell 1@125, Cancel{0, Sell, 122}, the emptied 122 level is
left at the front of the ask side, so a following Buy 1@130 sees no front
order to match and rests: a resting bid at 130 then coexists with a resting
ask at 125 — the book is crossed (125 ≤ 130). -/
theorem c7_crossed_book_after_cancel :
    restingPrices (OrderBook.processList OrderBook.new
        [.New .GoodTilCancel .Sell 122 1, .New .GoodTilCancel .Sell 125 1,
         .Cancel 0 .Sell 122, .New .GoodTilCancel .Buy 130 1]).bids = [130]
      ∧
    restingPrices (OrderBook.processList OrderBook.new
        [.New .GoodTilCancel .Sell 122 1, .New .GoodTilCancel .Sell 125 1,
         .Cancel 0 .Sell 122, .New .GoodTilCancel .Buy 130 1]).asks = [125]
      ∧ (125 : Int) ≤ 130 := by
  decide

/-- C8: Order::fill fails exactly when qty exceeds the remaining quantity, and
otherwise succeeds with the remaining quantity decremented by qty, the id,
type, side, price, initial quantity and created_at unchanged, and updated_at
refreshed to the current time. -/
theorem c8_fill_spec (o : MainRs.Order) (qty now : Nat) :
    o.fill qty now =
      (if o.order_rem_qty < qty then Except.error ()
       else Except.ok { o with order_rem_qty := o.order_rem_qty - qty, updated_at := now }) := by
  rfl

/-- C10: the fill call never mutates its receiver: the receiver state after
the call is the original order, all fields (in particular order_rem_qty and
updated_at) intact; the decremented quantity exists only in the returned
Result. -/
theorem c10_fill_receiver_unchanged (o : MainRs.Order) (qty now : Nat) :
    (o.fillMut qty now).1 = o ∧
    (o.fillMut qty now).1.order_rem_qty = o.order_rem_qty ∧
    (o.fillMut qty now).1.updated_at = o.updated_at ∧
    (o.fillMut qty now).2 = o.fill qty now := by
  exact ⟨rfl, rfl, rfl, rfl⟩

/-- The resting sell order created by the i-th New{GoodTilCancel, Sell, P, 1}
command of the C9 scenario (id and timestamps both equal to i, since each such
command draws one id and one clock reading). -/
def unitSell (P : Int) (i : Nat) : Order :=
  { id := i, side := .Sell, order_type := .GoodTilCancel, price := P,
    initial_qty := 1, remaining_qty := 1, created_at := i, updated_at := i }

/-- The book state after processing N New{GoodTilCancel, Sell, P, 1} commands
from a fresh book: N unit sells resting FIFO at one ask level. -/
def sellsBook (P : Int) (N : Nat) : OrderBook :=
  { bids := []
    asks :=
      if N = 0 then []
      else [{ price := P, orders := (List.range N).map (unitSell P) }]
    commands := List.replicate N (.New .GoodTilCancel .Sell P 1)
    events := (List.range N).map (fun i => .Placed i .Sell .GoodTilCancel P i)
    next_id := N
    clock := N }

theorem sells_step (P : Int) (N : Nat) :
    (sellsBook P N).process_command (.New .GoodTilCancel .Sell P 1) = sellsBook P (N + 1) := by
  rcases N with _ | M
  · simp [sellsBook, OrderBook.process_command, OrderBook.pushCmd, OrderBook.runNew,
      OrderBook.fresh_id, OrderBook.now, Order.new, OrderBook.place_order, OrderBook.totalOrders,
      OrderBook.placeOrderFuel, OrderBook.find_order_to_match, stableSort,
      OrderBook.ownLevels, OrderBook.setOwnLevels, levelPosition, Level.new,
      unitSell, List.replicate, List.range_succ]
  · simp [sellsBook, OrderBook.process_command, OrderBook.pushCmd, OrderBook.runNew,
      OrderBook.fresh_id, OrderBook.now, Order.new, OrderBook.place_order, OrderBook.totalOrders,
      OrderBook.placeOrderFuel, OrderBook.find_order_to_match, stableSort,
      OrderBook.ownLevels, OrderBook.setOwnLevels, levelPosition, Level.new,
      unitSell, List.replicate_succ', List.range_succ]

theorem sells_all (P : Int) (N : Nat) :
    OrderBook.processList OrderBook.new (List.replicate N (.New .GoodTilCancel .Sell P 1)) =
      sellsBook P N := by
  induction N with
  | zero => rfl
  | succ M ih =>
    rw [List.replicate_succ', OrderBook.processList, List.foldl_append]
    have : List.foldl OrderBook.process_command OrderBook.new
        (List.replicate M (.New .GoodTilCancel .Sell P 1)) = sellsBook P M := ih
    rw [this]
    simpa using sells_step P M

/-- The events appended while an incoming buy with remaining quantity k
(order id bid, price Pb) consumes k resting unit sells with consecutive ids
starting at j, the matching clock standing at c when the first comparison is
made: k - 1 PartiallyFilled/Filled pairs (one per fully consumed sell except
the last, the clock advancing by two between matches), then the final
Filled/Filled pair. -/
def buyTrace (bid : Nat) (Pb : Int) (j k c : Nat) : List OrderEvent :=
  match k with
  | 0 => []
  | 1 => [.Filled j Pb c, .Filled bid Pb c]
  | k + 2 =>
    .PartiallyFilled bid Pb 1 c :: .Filled j Pb c :: buyTrace bid Pb (j + 1) (k + 1) (c + 2)

theorem buy_consume (k : Nat) :
    ∀ (fuel j c bid t0 t1 q0 : Nat) (P : Int) (E : List OrderEvent)
      (C : List OrderCommand) (n : Nat),
      1 ≤ k → k ≤ fuel → ¬ q0 = 0 →
      OrderBook.placeOrderFuel fuel
        { bids := [], asks := [{ price := P, orders := (List.range' j k).map (unitSell P) }],
          commands := C, events := E, next_id := n, clock := c }
        { id := bid, side := .Buy, order_type := .GoodTilCancel, price := P,
          initial_qty := q0, remaining_qty := k, created_at := t0, updated_at := t1 }
      = { bids := [], asks := [], commands := C, events := E ++ buyTrace bid P j k c,
          next_id := n, clock := c + (2 * k - 1) } := by
  induction k with
  | zero => intro fuel j c bid t0 t1 q0 P E C n h1; omega
  | succ k ih =>
    intro fuel j c bid t0 t1 q0 P E C n h1 hf hq
    rcases fuel with _ | fuel
    · omega
    rcases k with _ | k
    · -- remaining quantity 1 against the front unit sell: the Equal branch
      simp [OrderBook.placeOrderFuel, OrderBook.find_order_to_match, stableSort, insertSorted,
        OrderBook.try_match_order, OrderBook.now, OrderBook.oppLevels, OrderBook.setOppLevels,
        levelPosition, List.range'_succ, unitSell, buyTrace, hq]
    · -- remaining quantity k+2 > 1: the Greater branch, then the induction
      -- hypothesis on the remaining k+1
      have step :
          OrderBook.placeOrderFuel (fuel + 1)
            { bids := [], asks := [{ price := P, orders := (List.range' j (k+2)).map (unitSell P) }],
              commands := C, events := E, next_id := n, clock := c }
            { id := bid, side := .Buy, order_type := .GoodTilCancel, price := P,
              initial_qty := q0, remaining_qty := k + 2, created_at := t0, updated_at := t1 }
          = OrderBook.placeOrderFuel fuel
            { bids := [],
              asks := [{ price := P, orders := (List.range' (j+1) (k+1)).map (unitSell P) }],
              commands := C,
              events := E ++ [.PartiallyFilled bid P 1 c, .Filled j P c],
              next_id := n, clock := c + 2 }
            { id := bid, side := .Buy, order_type := .GoodTilCancel, price := P,
              initial_qty := q0, remaining_qty := k + 1, created_at := t0, updated_at := c + 1 } := by
        simp [OrderBook.placeOrderFuel, OrderBook.find_order_to_match, stableSort, insertSorted,
          OrderBook.try_match_order, OrderBook.now, OrderBook.oppLevels, OrderBook.setOppLevels,
          levelPosition, List.range'_succ, unitSell, hq]
      rw [step, ih fuel (j+1) (c+2) bid t0 (c+1) q0 P
        (E ++ [OrderEvent.PartiallyFilled bid P 1 c, OrderEvent.Filled j P c]) C n
        (by omega) (by omega) hq]
      simp [buyTrace, List.append_assoc]
      omega

/-- Project an event to the id it carries when it is a Filled event for one of
the N resting sell orders (ids 0..N-1); the incoming buy order's own Filled
event (id N) and all other events project to none. -/
def restingFilledId (N : Nat) : OrderEvent → Option Nat
  | .Filled id _ _ => if id < N then some id else none
  | _ => none

theorem buyTrace_resting_ids (N : Nat) (P : Int) (k : Nat) :
    ∀ j c bid, j + k ≤ N → N ≤ bid →
      (buyTrace bid P j k c).filterMap (restingFilledId N) = List.range' j k := by
  induction k with
  | zero => intro j c bid hjk hbid; simp [buyTrace]
  | succ k ih =>
    intro j c bid hjk hbid
    rcases k with _ | k
    · have hj : j < N := by omega
      have hb : ¬ bid < N := by omega
      simp [buyTrace, restingFilledId, hj, hb, List.range'_one]
    · have hj : j < N := by omega
      rw [buyTrace]
      simp only [List.filterMap_cons]
      rw [show restingFilledId N (.PartiallyFilled bid P 1 c) = none from rfl,
        show restingFilledId N (.Filled j P c) = if j < N then some j else none from rfl,
        if_pos hj, ih (j+1) (c+2) bid (by omega) hbid]
      simp [List.range'_succ]

theorem filterMap_placed_none (N : Nat) (f : Nat → OrderEvent) (l : List Nat)
    (hf : ∀ i, restingFilledId N (f i) = none) :
    (l.map f).filterMap (restingFilledId N) = [] := by
  induction l with
  | nil => rfl
  | cons x xs ih => simp [List.filterMap_cons, hf, ih]

theorem processList_append (b : OrderBook) (l1 l2 : List OrderCommand) :
    OrderBook.processList b (l1 ++ l2) =
      OrderBook.processList (OrderBook.processList b l1) l2 := by
  simp [OrderBook.processList, List.foldl_append]

/-- C9: N unit sells at price P followed by one buy of quantity N at P empty
both sides, and the Filled events for the resting sells appear in placement
(FIFO) order: the ids they carry, read off the event log in order, are
exactly 0, 1, ..., N-1. -/
theorem c9_fifo_match (N : Nat) (P : Int) :
    (OrderBook.processList OrderBook.new
        (List.replicate N (.New .GoodTilCancel .Sell P 1)
          ++ [.New .GoodTilCancel .Buy P N])).bids = []
    ∧ (OrderBook.processList OrderBook.new
        (List.replicate N (.New .GoodTilCancel .Sell P 1)
          ++ [.New .GoodTilCancel .Buy P N])).asks = []
    ∧ (OrderBook.processList OrderBook.new
        (List.replicate N (.New .GoodTilCancel .Sell P 1)
          ++ [.New .GoodTilCancel .Buy P N])).events.filterMap (restingFilledId N)
      = List.range N := by
  rw [processList_append, sells_all]
  rcases N with _ | M
  · refine ⟨?_, ?_, ?_⟩ <;>
      simp [sellsBook, OrderBook.processList, OrderBook.process_command, OrderBook.pushCmd,
        OrderBook.runNew, OrderBook.fresh_id, OrderBook.now, Order.new, OrderBook.place_order,
        OrderBook.totalOrders, OrderBook.placeOrderFuel, restingFilledId]
  · have hbuy :
        OrderBook.processList (sellsBook P (M+1)) [.New .GoodTilCancel .Buy P (M+1)]
        = { bids := [], asks := [],
            commands := List.replicate (M+1) (.New .GoodTilCancel .Sell P 1)
              ++ [.New .GoodTilCancel .Buy P (M+1)],
            events := ((List.range (M+1)).map (fun i => .Placed i .Sell .GoodTilCancel P i)
                ++ [.Placed (M+1) .Buy .GoodTilCancel P (M+1)])
              ++ buyTrace (M+1) P 0 (M+1) (M+2),
            next_id := M + 2, clock := (M+2) + (2 * (M+1) - 1) } := by
      simp only [OrderBook.processList, List.foldl_cons, List.foldl_nil,
        OrderBook.process_command, OrderBook.pushCmd, OrderBook.runNew, OrderBook.fresh_id,
        OrderBook.now, Order.new, OrderBook.place_order, OrderBook.totalOrders, sellsBook,
        List.map_cons, List.map_nil, List.sum_cons, List.sum_nil, List.length_map,
        List.length_range, Nat.succ_ne_zero, if_false, reduceIte]
      rw [show (List.range (M+1)).map (unitSell P) =
        (List.range' 0 (M+1)).map (unitSell P) from by rw [List.range_eq_range']]
      exact buy_consume (M+1) _ 0 (M+2) (M+1) (M+1) (M+1) (M+1) P _ _ (M+2)
        (by omega) (by omega) (by omega)
    rw [hbuy]
    refine ⟨rfl, rfl, ?_⟩
    simp only [List.filterMap_append]
    rw [filterMap_placed_none (M+1) (fun i => OrderEvent.Placed i .Sell .GoodTilCancel P i)
        (List.range (M+1)) (fun i => rfl),
      show (List.filterMap (restingFilledId (M+1)) [.Placed (M+1) .Buy .GoodTilCancel P (M+1)]) = [] from rfl,
      buyTrace_resting_ids (M+1) P (M+1) 0 (M+2) (M+1) (by omega) (by omega),
      List.range_eq_range']
    simp
